import Mathlib

/-!
Verification of the mongoimport CSV/TSV input readers
(src/mongoimport/csv.go: `CSVInputReader`, `TSVInputReader` and their
producer goroutines, header validation and `Convert` methods).

The byte stream is modelled as a `List Char`; the `uint64` counter
`numProcessed` is modelled as `Nat` (no wraparound below 2^64 records).
Functions of the repository that are not part of the given sources
(`sizeTrackingReader`, `validateReaderFields`, `streamDocuments`,
`tokensToBSON`, and the `mongoimport/csv` framing package) are modelled
from the specification; each such definition carries a doc comment
starting with `Modelled from the spec:`.
-/

namespace MongoImport

/-- Byte strings are modelled as lists of characters. -/
abbrev Str := List Char

/-- Embedding of Go `strings.TrimRight(s, cutset)`: remove all trailing
characters that are contained in `cutset`. -/
def goTrimRight (s : Str) (cutset : List Char) : Str :=
  (s.reverse.dropWhile (fun c => decide (c ∈ cutset))).reverse

/-- Embedding of Go `strings.Split(s, sep)` for a one-character separator
`sep`: split around every instance of the separator; the empty string
splits to `[""]`. -/
def goSplitChar (sep : Char) : Str → List Str
  | [] => [[]]
  | c :: cs =>
    if c = sep then [] :: goSplitChar sep cs
    else
      match goSplitChar sep cs with
      | t :: ts => (c :: t) :: ts
      | [] => [[c]]

/-- A byte source as seen by a buffered reader: the remaining bytes, and
what the underlying reader reports once they are exhausted — `none` for a
clean end of input (`io.EOF`), `some msg` for an I/O failure. -/
structure BufSource where
  rem : Str
  err : Option String
  deriving DecidableEq, Repr

/-- Split off the shortest prefix ending in the delimiter `d`: returns
`some (line, rest)` with `line` including the delimiter, or `none` when
the delimiter does not occur. -/
def splitAtDelim (d : Char) : Str → Option (Str × Str)
  | [] => none
  | c :: cs =>
    if c = d then some ([c], cs)
    else (splitAtDelim d cs).map (fun p => (c :: p.1, p.2))

/-- Outcome of one framing read: a frame and the advanced source, a clean
end of input, or an I/O failure message. -/
inductive ReadOutcome (α : Type) where
  | ok (a : α) (s : BufSource)
  | eof
  | fail (msg : String)
  deriving Repr

/-- Embedding of `tsvReader.ReadString(entryDelimiter)` on a
`bufio.Reader` (`entryDelimiter = '\n'`): return the line up to and
including the first `'\n'`; if the source drains first, the partial data
is returned together with the underlying error (`io.EOF` for a clean
end), which the caller of `ReadString` observes as a non-nil error. -/
def tsvRead (s : BufSource) : ReadOutcome Str :=
  match splitAtDelim '\n' s.rem with
  | some (line, rest) => .ok line ⟨rest, s.err⟩
  | none =>
    match s.err with
    | some m => .fail m
    | none => .eof

/-- A value sent on the `errChan` error channel: either the producer's
`fmt.Errorf("read error on entry #%v: %v", numProcessed, err)`, carrying
the 1-based ordinal of the failing record, or a conversion error carrying
the 0-based sequence index of the failing record (the error contract of
`tokensToBSON` per the spec). -/
inductive StreamErr where
  | readError (ordinal : Nat) (msg : String)
  | convError (index : Nat) (msg : String)
  deriving DecidableEq, Repr

/-- A BSON document `bson.D`: an ordered list of (field name, value)
pairs. The values produced by the external type inference are opaque to
this core; they are represented as strings. -/
abbrev BsonD := List (Str × Str)

/-- Embedding of `TSVConvertibleDoc`: field names, the raw line as read (including its
line terminator), and the 0-based sequence index. -/
structure TSVConvertibleDoc where
  fields : List Str
  data : Str
  index : Nat
  deriving DecidableEq, Repr

/-- Embedding of `CSVConvertibleDoc`: field names, the tokens of one framed CSV
record, and the 0-based sequence index. -/
structure CSVConvertibleDoc where
  fields : List Str
  data : List Str
  index : Nat
  deriving DecidableEq, Repr

/-- The producer goroutine of `StreamDocument`, common to both readers:
starting from `numProcessed = n`, repeatedly call the framing read
(`read`), pair each frame with the current `numProcessed` and admit it to
the record channel, incrementing `numProcessed`; on a read outcome with a
non-nil error, stop: for `io.EOF` close the channel with no error, for
any other failure first increment `numProcessed` and emit the read error
tagged with the resulting 1-based ordinal. `fuel` bounds the number of
iterations; every instance below is run with enough fuel to drain its
source. Returns (admitted records, final numProcessed, error sent on
errChan by the producer). -/
def producerRun (read : BufSource → ReadOutcome α) :
    Nat → BufSource → Nat → List (α × Nat) × Nat × Option StreamErr
  | 0, _, n => ([], n, none)
  | fuel + 1, s, n =>
    match read s with
    | .ok a s' =>
      let r := producerRun read fuel s' (n + 1)
      ((a, n) :: r.1, r.2)
    | .eof => ([], n, none)
    | .fail m => ([], n + 1, some (.readError (n + 1) m))

/-- Modelled from the spec: `streamDocuments` (the decode & reassembly
engine, not among the given sources) converts each admitted record and
returns, after the output has drained, the documents together with a
single terminal value — `none` on full success or the first conversion
error, the output being truncated at the failure point. Worker count and
completion timing are abstracted away by this sequential ordered-mode
semantics. -/
def streamDocuments (convert : α → Except StreamErr BsonD) :
    List α → List BsonD × Option StreamErr
  | [] => ([], none)
  | d :: ds =>
    match convert d with
    | .error e => ([], some e)
    | .ok doc =>
      let r := streamDocuments convert ds
      (doc :: r.1, r.2)

/-- The TSV tokenization performed by `TSVConvertibleDoc.Convert`:
`strings.Split(strings.TrimRight(data, "\r\n"), tokenSeparator)` with
`tokenSeparator = "\t"`. -/
def tsvTokenize (data : Str) : List Str :=
  goSplitChar '\t' (goTrimRight data ['\r', '\n'])

/-- Embedding of `TSVConvertibleDoc.Convert`: tokenize the raw line and hand the
tokens to `tokensToBSON` (the external conversion contract, passed as the
parameter `t2b`). -/
def TSVConvertibleDoc.Convert
    (t2b : List Str → List Str → Nat → Except StreamErr BsonD)
    (d : TSVConvertibleDoc) : Except StreamErr BsonD :=
  t2b d.fields (tsvTokenize d.data) d.index

/-- Embedding of `CSVConvertibleDoc.Convert`: hand the already-framed tokens to
`tokensToBSON`. -/
def CSVConvertibleDoc.Convert
    (t2b : List Str → List Str → Nat → Except StreamErr BsonD)
    (d : CSVConvertibleDoc) : Except StreamErr BsonD :=
  t2b d.fields d.data d.index

/-- Modelled from the spec: `sizeTrackingReader` (not among the given
sources) wraps a byte source and counts every byte read through it;
`Size()` returns the cumulative count. -/
structure SizeTrackingReader where
  count : Nat
  deriving DecidableEq, Repr

/-- Drop a single trailing carriage return (the `\r` of a `\r\n` line
ending) from a line. -/
def stripCR (line : Str) : Str :=
  match line.reverse with
  | '\r' :: rest => rest.reverse
  | _ => line

/-- Go `unicode.IsSpace` restricted to the blank characters occurring in
this model. -/
def isGoSpace (c : Char) : Bool :=
  c = ' ' || c = '\t'

/-- Modelled from the spec: the CSV framing of the external
`mongoimport/csv` package ("structural quoting/escaping rules of the
chosen format"); this model covers unquoted records: one record per
`'\n'`-terminated line (a trailing `'\r'` is dropped), fields split on
commas, and — because `NewCSVInputReader` sets `TrimLeadingSpace = true`
— leading white space in a field is ignored. -/
def csvParseLine (line : Str) : List Str :=
  (goSplitChar ',' (stripCR line)).map (fun f => f.dropWhile isGoSpace)

/-- Modelled from the spec: one `csvReader.Read()` call of the external
`mongoimport/csv` package. A `'\n'`-terminated line yields its record; a
non-empty source with no `'\n'` left and a clean end yields the final
unterminated line as a record (CSV, unlike the TSV reader, does not
require the final line terminator); an empty source yields `io.EOF`; an
underlying I/O failure yields that failure. -/
def csvRead (s : BufSource) : ReadOutcome (List Str) :=
  match splitAtDelim '\n' s.rem with
  | some (line, rest) => .ok (csvParseLine line.dropLast) ⟨rest, s.err⟩
  | none =>
    match s.err with
    | some m => .fail m
    | none =>
      if s.rem.isEmpty then .eof
      else .ok (csvParseLine s.rem) ⟨[], none⟩

/-- Modelled from the spec: `validateReaderFields` (not among the given
sources) validates a field list: it must be non-empty and contain no
duplicate or empty names; any violation is a header error. -/
def validateReaderFields (fields : List Str) : Except String Unit :=
  if fields = [] then .error ("no fields to validate")
  else if fields.any (fun f => f = []) then .error ("field cannot be empty")
  else if fields.Nodup then .ok ()
  else .error ("duplicate field name")

/-- Embedding of `TSVInputReader`: the field names, the `bufio.Reader` created by
`bufio.NewReader(in)` — which wraps the raw input `in` directly — the
`numProcessed` counter, and the embedded `sizeTracker`, the
`sizeTrackingReader` created over the same input.  Per the constructor
`NewTSVInputReader`, the buffered reader does not read through the
tracker. -/
structure TSVInputReader where
  fields : List Str
  tsvReader : BufSource
  numProcessed : Nat
  szCount : SizeTrackingReader
  deriving DecidableEq, Repr

/-- Embedding of `NewTSVInputReader(fields, in, numDecoders)`:
`szCount := &sizeTrackingReader{in, 0}` and
`tsvReader: bufio.NewReader(in)` — the buffered reader wraps `in`, not
`szCount`, so reads bypass the tracker. -/
def NewTSVInputReader (fields : List Str) (input : Str) : TSVInputReader :=
  { fields := fields
    tsvReader := ⟨input, none⟩
    numProcessed := 0
    szCount := ⟨0⟩ }

/-- Embedding of `CSVInputReader`: the field names, the CSV reader created by
`csv.NewReader(szCount)` — which reads through the size tracker — the
`numProcessed` counter, and the embedded `sizeTracker`. -/
structure CSVInputReader where
  fields : List Str
  csvReader : BufSource
  numProcessed : Nat
  szCount : SizeTrackingReader
  deriving DecidableEq, Repr

/-- Embedding of `NewCSVInputReader(fields, in, numDecoders)`:
`szCount := &sizeTrackingReader{in, 0}` and
`csvReader := csv.NewReader(szCount)` — CSV framing reads pull through
the tracker. -/
def NewCSVInputReader (fields : List Str) (input : Str) : CSVInputReader :=
  { fields := fields
    csvReader := ⟨input, none⟩
    numProcessed := 0
    szCount := ⟨0⟩ }

/-- Repeatedly apply a framing read until end of input or failure,
returning the final source state. -/
def drainSource (read : BufSource → ReadOutcome α) : Nat → BufSource → BufSource
  | 0, s => s
  | fuel + 1, s =>
    match read s with
    | .ok _ s' => drainSource read fuel s'
    | _ => s

/-- The TSV reader after its source has been fully drained by the
producer: the buffered reader advances, `numProcessed` advances, and —
reads not passing through it — the size tracker keeps its count. -/
def TSVInputReader.drained (r : TSVInputReader) : TSVInputReader :=
  let fuel := r.tsvReader.rem.length + 1
  { r with
    tsvReader := drainSource tsvRead fuel r.tsvReader
    numProcessed := (producerRun tsvRead fuel r.tsvReader r.numProcessed).2.1 }

/-- The CSV reader after its source has been fully drained: every byte
the CSV framing pulls passes through the size tracker, whose count grows
by the number of bytes consumed. -/
def CSVInputReader.drained (r : CSVInputReader) : CSVInputReader :=
  let fuel := r.csvReader.rem.length + 1
  let s' := drainSource csvRead fuel r.csvReader
  { r with
    csvReader := s'
    numProcessed := (producerRun csvRead fuel r.csvReader r.numProcessed).2.1
    szCount := ⟨r.szCount.count + (r.csvReader.rem.length - s'.rem.length)⟩ }

/-- Embedding of `Size()` of the embedded size tracker. -/
def TSVInputReader.Size (r : TSVInputReader) : Nat := r.szCount.count

/-- Embedding of `Size()` of the embedded size tracker. -/
def CSVInputReader.Size (r : CSVInputReader) : Nat := r.szCount.count

/-- Embedding of `TSVInputReader.StreamDocument`: the producer goroutine frames lines
with `ReadString('\n')` and admits `TSVConvertibleDoc`s to the record
channel; the engine converts them; `errChan` receives the producer's
read error, if any, followed by the engine's terminal value.  Returns
(documents sent on readDocChan, values sent on errChan in order). -/
def TSVInputReader.StreamDocument
    (t2b : List Str → List Str → Nat → Except StreamErr BsonD)
    (r : TSVInputReader) : List BsonD × List (Option StreamErr) :=
  let p := producerRun tsvRead (r.tsvReader.rem.length + 1) r.tsvReader r.numProcessed
  let records := p.1.map (fun x => TSVConvertibleDoc.mk r.fields x.1 x.2)
  let eng := streamDocuments (TSVConvertibleDoc.Convert t2b) records
  (eng.1, (p.2.2.map some).toList ++ [eng.2])

/-- Embedding of `CSVInputReader.StreamDocument`, analogously to the TSV variant. -/
def CSVInputReader.StreamDocument
    (t2b : List Str → List Str → Nat → Except StreamErr BsonD)
    (r : CSVInputReader) : List BsonD × List (Option StreamErr) :=
  let p := producerRun csvRead (r.csvReader.rem.length + 1) r.csvReader r.numProcessed
  let records := p.1.map (fun x => CSVConvertibleDoc.mk r.fields x.1 x.2)
  let eng := streamDocuments (CSVConvertibleDoc.Convert t2b) records
  (eng.1, (p.2.2.map some).toList ++ [eng.2])

/-- The Raw Records admitted to the record channel by the producer
goroutine of `TSVInputReader.StreamDocument`. -/
def TSVInputReader.admittedRecords (r : TSVInputReader) : List TSVConvertibleDoc :=
  (producerRun tsvRead (r.tsvReader.rem.length + 1) r.tsvReader r.numProcessed).1.map
    (fun x => TSVConvertibleDoc.mk r.fields x.1 x.2)

/-- The Raw Records admitted to the record channel by the producer
goroutine of `CSVInputReader.StreamDocument`. -/
def CSVInputReader.admittedRecords (r : CSVInputReader) : List CSVConvertibleDoc :=
  (producerRun csvRead (r.csvReader.rem.length + 1) r.csvReader r.numProcessed).1.map
    (fun x => CSVConvertibleDoc.mk r.fields x.1 x.2)

/-- Interleaved state of one `StreamDocument` pipeline (TSV instance):
the producer's source and `numProcessed`, the contents of the bounded
record channel, the first error observed by the engine (the spec's
terminal-error cell), the documents forwarded so far, and whether the
producer goroutine has returned. -/
structure PipeState where
  src : BufSource
  numProcessed : Nat
  queue : List TSVConvertibleDoc
  latched : Option StreamErr
  docs : List BsonD
  producerDone : Bool
  deriving DecidableEq, Repr

/-- A scheduling step of the pipeline: one iteration of the producer
goroutine's loop, or one worker dequeue-and-convert. -/
inductive PStep where
  | produce
  | work
  deriving DecidableEq, Repr

/-- Small-step semantics of the `StreamDocument` pipeline (TSV instance)
with record-channel capacity `cap` (`numDecoders` in the source).
`produce` mirrors one iteration of the producer goroutine's loop exactly
as written: it reads a line and admits the record whenever the channel
has room, without consulting the latched error; it stops only on its own
read outcome (`io.EOF`, or a read failure, which it reports with the
1-based ordinal).  `work` dequeues one record and converts it; the first
error observed is latched (first write wins).  `none` means the step is
not enabled (producer blocked on a full channel or already returned;
worker blocked on an empty channel). -/
def pipeStep (cap : Nat) (fields : List Str)
    (t2b : List Str → List Str → Nat → Except StreamErr BsonD)
    (s : PipeState) : PStep → Option PipeState
  | .produce =>
    if s.producerDone then none
    else
      match tsvRead s.src with
      | .ok line src' =>
        if s.queue.length < cap then
          some { s with
                 src := src'
                 queue := s.queue ++ [TSVConvertibleDoc.mk fields line s.numProcessed]
                 numProcessed := s.numProcessed + 1 }
        else none
      | .eof => some { s with producerDone := true }
      | .fail m =>
        some { s with
               producerDone := true
               numProcessed := s.numProcessed + 1
               latched :=
                 (s.latched.orElse
                   (fun _ => some (.readError (s.numProcessed + 1) m))) }
  | .work =>
    match s.queue with
    | [] => none
    | d :: rest =>
      match TSVConvertibleDoc.Convert t2b d with
      | .ok doc => some { s with queue := rest, docs := s.docs ++ [doc] }
      | .error e =>
        some { s with
               queue := rest
               latched := s.latched.orElse (fun _ => some e) }

/-- Run a list of scheduling steps; `none` when a step was not enabled. -/
def runSteps (cap : Nat) (fields : List Str)
    (t2b : List Str → List Str → Nat → Except StreamErr BsonD) :
    PipeState → List PStep → Option PipeState
  | s, [] => some s
  | s, st :: sts =>
    match pipeStep cap fields t2b s st with
    | some s' => runSteps cap fields t2b s' sts
    | none => none

/-- The pipeline state at the start of `StreamDocument`. -/
def initPipeState (src : BufSource) : PipeState :=
  { src := src
    numProcessed := 0
    queue := []
    latched := none
    docs := []
    producerDone := false }

/-- Embedding of `CSVInputReader.ReadAndValidateHeader`: read one CSV record; a read
error is returned synchronously; otherwise the reader's field list is
replaced by the record and validated. -/
def CSVInputReader.ReadAndValidateHeader (r : CSVInputReader) :
    Except String Unit × CSVInputReader :=
  match csvRead r.csvReader with
  | .ok fields s' =>
    (validateReaderFields fields, { r with fields := fields, csvReader := s' })
  | .eof => (.error ("EOF"), r)
  | .fail m => (.error m, r)

/-- Embedding of `TSVInputReader.ReadAndValidateHeader`: read one line with
`ReadString('\n')`; a read error is returned synchronously; otherwise
each tab-separated name of the header, trailing `"\r\n"` trimmed, is
appended to the reader's existing field list, which is then validated. -/
def TSVInputReader.ReadAndValidateHeader (r : TSVInputReader) :
    Except String Unit × TSVInputReader :=
  match tsvRead r.tsvReader with
  | .ok header s' =>
    let newFields :=
      r.fields ++ (goSplitChar '\t' header).map (fun f => goTrimRight f ['\r', '\n'])
    (validateReaderFields newFields, { r with fields := newFields, tsvReader := s' })
  | .eof => (.error ("EOF"), r)
  | .fail m => (.error m, r)

/-- Concatenate tokens with a single-character separator between them
(the left inverse of `goSplitChar` on separator-free tokens). -/
def joinSep (sep : Char) : List Str → Str
  | [] => []
  | [t] => t
  | t :: ts => t ++ sep :: joinSep sep ts

/-- A stream of `'\n'`-terminated lines. -/
def tsvJoinLines (lines : List Str) : Str :=
  (lines.map (fun l => l ++ ['\n'])).flatten

/-- A concrete conversion contract: pair the field names with the raw
tokens, succeeding on every record. -/
def t2bZip : List Str → List Str → Nat → Except StreamErr BsonD :=
  fun f d _ => .ok (f.zip d)

/-- A concrete conversion contract that rejects every record, tagging
the error with the record's sequence index. -/
def t2bFail : List Str → List Str → Nat → Except StreamErr BsonD :=
  fun _ _ i => .error (.convError i ("cannot convert"))

lemma splitAtDelim_some {d : Char} :
    ∀ {s l r : Str}, splitAtDelim d s = some (l, r) → l ++ r = s ∧ l ≠ [] := by
  intro s
  induction s with
  | nil => intro l r h; simp [splitAtDelim] at h
  | cons c cs ih =>
    intro l r h
    by_cases hc : c = d
    · simp only [splitAtDelim, if_pos hc, Option.some.injEq, Prod.mk.injEq] at h
      obtain ⟨hl, hr⟩ := h
      subst hl; subst hr
      exact ⟨rfl, by simp⟩
    · simp only [splitAtDelim, if_neg hc] at h
      cases hsp : splitAtDelim d cs with
      | none => rw [hsp] at h; simp at h
      | some p =>
        obtain ⟨p1, p2⟩ := p
        rw [hsp] at h
        simp only [Option.map, Option.some.injEq, Prod.mk.injEq] at h
        obtain ⟨hl, hr⟩ := h
        subst hl; subst hr
        obtain ⟨h1, _⟩ := ih hsp
        exact ⟨by simp [h1], by simp⟩

lemma splitAtDelim_of_leading {d : Char} :
    ∀ (xs ys : Str), d ∉ xs →
      splitAtDelim d (xs ++ d :: ys) = some (xs ++ [d], ys) := by
  intro xs
  induction xs with
  | nil => intro ys _; simp [splitAtDelim]
  | cons c cs ih =>
    intro ys h
    have hc : c ≠ d := fun hc => h (by simp [hc])
    have hcs : d ∉ cs := fun hm => h (by simp [hm])
    show splitAtDelim d (c :: (cs ++ d :: ys)) = _
    simp only [splitAtDelim, if_neg hc]
    rw [ih ys hcs]
    rfl

lemma tsvRead_ok {s : BufSource} {a : Str} {s' : BufSource}
    (h : tsvRead s = .ok a s') :
    s'.err = s.err ∧ s'.rem.length < s.rem.length := by
  cases hsp : splitAtDelim '\n' s.rem with
  | some p =>
    obtain ⟨l, r⟩ := p
    simp only [tsvRead, hsp, ReadOutcome.ok.injEq] at h
    obtain ⟨_, hs'⟩ := h
    subst hs'
    obtain ⟨h1, h2⟩ := splitAtDelim_some hsp
    refine ⟨rfl, ?_⟩
    have : l.length + r.length = s.rem.length := by
      rw [← h1]; simp
    have hl : 0 < l.length := List.length_pos.mpr h2
    simp only
    omega
  | none =>
    simp only [tsvRead, hsp] at h
    cases herr : s.err <;> rw [herr] at h <;> simp at h

lemma tsvRead_eof {s : BufSource} (h : tsvRead s = .eof) :
    s.err = none ∧ splitAtDelim '\n' s.rem = none := by
  cases hsp : splitAtDelim '\n' s.rem with
  | some p => simp [tsvRead, hsp] at h
  | none =>
    simp only [tsvRead, hsp] at h
    cases herr : s.err <;> rw [herr] at h
    · exact ⟨rfl, rfl⟩
    · simp at h

lemma tsvRead_fail {s : BufSource} {m : String} (h : tsvRead s = .fail m) :
    s.err = some m := by
  cases hsp : splitAtDelim '\n' s.rem with
  | some p => simp [tsvRead, hsp] at h
  | none =>
    simp only [tsvRead, hsp] at h
    cases herr : s.err <;> rw [herr] at h
    · simp at h
    · simp only [ReadOutcome.fail.injEq] at h
      rw [h]

lemma csvRead_ok {s : BufSource} {a : List Str} {s' : BufSource}
    (h : csvRead s = .ok a s') :
    s'.err = s.err ∧ s'.rem.length < s.rem.length := by
  cases hsp : splitAtDelim '\n' s.rem with
  | some p =>
    obtain ⟨l, r⟩ := p
    simp only [csvRead, hsp, ReadOutcome.ok.injEq] at h
    obtain ⟨_, hs'⟩ := h
    subst hs'
    obtain ⟨h1, h2⟩ := splitAtDelim_some hsp
    refine ⟨rfl, ?_⟩
    have : l.length + r.length = s.rem.length := by
      rw [← h1]; simp
    have hl : 0 < l.length := List.length_pos.mpr h2
    simp only
    omega
  | none =>
    simp only [csvRead, hsp] at h
    cases herr : s.err <;> rw [herr] at h
    · by_cases hre : s.rem.isEmpty
      · rw [if_pos hre] at h; simp at h
      · rw [if_neg hre] at h
        simp only [ReadOutcome.ok.injEq] at h
        obtain ⟨_, hs'⟩ := h
        subst hs'
        have : s.rem ≠ [] := by
          intro hnil; exact hre (by simp [hnil])
        exact ⟨rfl, by simpa using List.length_pos.mpr this⟩
    · simp at h

lemma csvRead_eof {s : BufSource} (h : csvRead s = .eof) :
    s.err = none ∧ s.rem = [] := by
  cases hsp : splitAtDelim '\n' s.rem with
  | some p => simp [csvRead, hsp] at h
  | none =>
    simp only [csvRead, hsp] at h
    cases herr : s.err <;> rw [herr] at h
    · by_cases hre : s.rem.isEmpty
      · exact ⟨rfl, by simpa using hre⟩
      · rw [if_neg hre] at h; simp at h
    · simp at h

lemma csvRead_fail {s : BufSource} {m : String} (h : csvRead s = .fail m) :
    s.err = some m := by
  cases hsp : splitAtDelim '\n' s.rem with
  | some p => simp [csvRead, hsp] at h
  | none =>
    simp only [csvRead, hsp] at h
    cases herr : s.err <;> rw [herr] at h
    · by_cases hre : s.rem.isEmpty
      · rw [if_pos hre] at h; simp at h
      · rw [if_neg hre] at h; simp at h
    · simp only [ReadOutcome.fail.injEq] at h
      rw [h]

lemma producerRun_map_snd (read : BufSource → ReadOutcome α) :
    ∀ (fuel : Nat) (s : BufSource) (n : Nat),
      (producerRun read fuel s n).1.map Prod.snd =
        List.range' n (producerRun read fuel s n).1.length := by
  intro fuel
  induction fuel with
  | zero => intro s n; simp [producerRun]
  | succ f ih =>
    intro s n
    cases hread : read s with
    | ok a s' =>
      simp only [producerRun, hread, List.map_cons, List.length_cons]
      rw [ih s' (n + 1)]
      rfl
    | eof => simp [producerRun, hread]
    | fail m => simp [producerRun, hread]

lemma producerRun_err_clean (read : BufSource → ReadOutcome α)
    (hok : ∀ s a s', read s = .ok a s' → s'.err = s.err)
    (hfail : ∀ s m, read s = .fail m → s.err = some m) :
    ∀ (fuel : Nat) (s : BufSource) (n : Nat), s.err = none →
      (producerRun read fuel s n).2.2 = none := by
  intro fuel
  induction fuel with
  | zero => intro s n _; simp [producerRun]
  | succ f ih =>
    intro s n herr
    cases hread : read s with
    | ok a s' =>
      simp only [producerRun, hread]
      exact ih s' (n + 1) ((hok s a s' hread).trans herr)
    | eof => simp [producerRun, hread]
    | fail m =>
      exact absurd ((hfail s m hread).symm.trans herr) (by simp)

lemma producerRun_err_fail (read : BufSource → ReadOutcome α)
    (hok : ∀ s a s', read s = .ok a s' → s'.err = s.err ∧ s'.rem.length < s.rem.length)
    (heof : ∀ s, read s = .eof → s.err = none)
    (hfail : ∀ s m, read s = .fail m → s.err = some m) :
    ∀ (fuel : Nat) (s : BufSource) (n : Nat) (msg : String),
      s.err = some msg → s.rem.length < fuel →
      (producerRun read fuel s n).2.2 =
        some (.readError (n + (producerRun read fuel s n).1.length + 1) msg) := by
  intro fuel
  induction fuel with
  | zero => intro s n msg _ hlt; exact absurd hlt (Nat.not_lt_zero _)
  | succ f ih =>
    intro s n msg herr hlt
    cases hread : read s with
    | ok a s' =>
      obtain ⟨he, hl⟩ := hok s a s' hread
      have herr' : s'.err = some msg := he.trans herr
      have hlt' : s'.rem.length < f := by omega
      simp only [producerRun, hread, List.length_cons]
      rw [ih s' (n + 1) msg herr' hlt']
      have : n + 1 + (producerRun read f s' (n + 1)).1.length + 1 =
          n + ((producerRun read f s' (n + 1)).1.length + 1) + 1 := by omega
      rw [this]
    | eof =>
      exact absurd ((heof s hread).symm.trans herr) (by simp)
    | fail m =>
      have hm : m = msg := by
        have := (hfail s m hread).symm.trans herr
        simpa using this
      subst hm
      simp [producerRun, hread]

lemma drainSource_csv_complete :
    ∀ (fuel : Nat) (s : BufSource), s.err = none → s.rem.length < fuel →
      (drainSource csvRead fuel s).rem = [] := by
  intro fuel
  induction fuel with
  | zero => intro s _ hlt; exact absurd hlt (Nat.not_lt_zero _)
  | succ f ih =>
    intro s herr hlt
    cases hread : csvRead s with
    | ok a s' =>
      obtain ⟨he, hl⟩ := csvRead_ok hread
      simp only [drainSource, hread]
      exact ih s' (he.trans herr) (by omega)
    | eof =>
      simp only [drainSource, hread]
      exact (csvRead_eof hread).2
    | fail m =>
      exact absurd ((csvRead_fail hread).symm.trans herr) (by simp)

lemma streamDocuments_total {convert : α → Except StreamErr BsonD} :
    ∀ {ds : List α}, (∀ d ∈ ds, ∃ doc, convert d = .ok doc) →
      (streamDocuments convert ds).1.length = ds.length ∧
      (streamDocuments convert ds).2 = none := by
  intro ds
  induction ds with
  | nil => intro _; simp [streamDocuments]
  | cons d ds ih =>
    intro h
    obtain ⟨doc, hdoc⟩ := h d (by simp)
    have := ih (fun d' hd' => h d' (by simp [hd']))
    simp only [streamDocuments, hdoc, List.length_cons]
    exact ⟨by rw [this.1], this.2⟩

lemma dropWhile_eq_self_of_forall {p : Char → Bool} :
    ∀ {l : Str}, (∀ c ∈ l, p c = false) → l.dropWhile p = l := by
  intro l
  induction l with
  | nil => intro _; rfl
  | cons c cs _ =>
    intro h
    simp [List.dropWhile, h c (by simp)]

lemma goTrimRight_no_cutset {cutset : List Char} {l : Str}
    (h : ∀ c ∈ l, c ∉ cutset) : goTrimRight l cutset = l := by
  unfold goTrimRight
  rw [dropWhile_eq_self_of_forall, List.reverse_reverse]
  intro c hc
  simpa using h c (by simpa using hc)

lemma goTrimRight_append_single {cutset : List Char} {l : Str} {d : Char}
    (hd : d ∈ cutset) (h : ∀ c ∈ l, c ∉ cutset) :
    goTrimRight (l ++ [d]) cutset = l := by
  unfold goTrimRight
  simp only [List.reverse_append, List.reverse_cons, List.reverse_nil,
    List.nil_append, List.singleton_append, List.dropWhile]
  rw [decide_eq_true hd]
  rw [dropWhile_eq_self_of_forall, List.reverse_reverse]
  intro c hc
  simpa using h c (by simpa using hc)

lemma goSplitChar_no_sep {sep : Char} :
    ∀ {t : Str}, sep ∉ t → goSplitChar sep t = [t] := by
  intro t
  induction t with
  | nil => intro _; rfl
  | cons c cs ih =>
    intro h
    have hc : c ≠ sep := fun hc => h (by simp [hc])
    have hcs : sep ∉ cs := fun hm => h (by simp [hm])
    simp only [goSplitChar, if_neg hc, ih hcs]

lemma goSplitChar_append_sep {sep : Char} :
    ∀ {t rest : Str}, sep ∉ t →
      goSplitChar sep (t ++ sep :: rest) = t :: goSplitChar sep rest := by
  intro t
  induction t with
  | nil => intro rest _; simp [goSplitChar]
  | cons c cs ih =>
    intro rest h
    have hc : c ≠ sep := fun hc => h (by simp [hc])
    have hcs : sep ∉ cs := fun hm => h (by simp [hm])
    show goSplitChar sep (c :: (cs ++ sep :: rest)) = _
    simp only [goSplitChar, if_neg hc, ih hcs]

lemma goSplitChar_joinSep {sep : Char} :
    ∀ {tokens : List Str}, tokens ≠ [] → (∀ t ∈ tokens, sep ∉ t) →
      goSplitChar sep (joinSep sep tokens) = tokens := by
  intro tokens
  induction tokens with
  | nil => intro h _; exact absurd rfl h
  | cons t ts ih =>
    intro _ h
    cases ts with
    | nil =>
      show goSplitChar sep t = [t]
      exact goSplitChar_no_sep (h t (by simp))
    | cons t' ts' =>
      show goSplitChar sep (t ++ sep :: joinSep sep (t' :: ts')) = _
      rw [goSplitChar_append_sep (h t (by simp))]
      rw [ih (by simp) (fun u hu => h u (by simp [hu]))]

lemma mem_joinSep {sep : Char} :
    ∀ {tokens : List Str} {c : Char}, c ∈ joinSep sep tokens →
      c = sep ∨ ∃ t ∈ tokens, c ∈ t := by
  intro tokens
  induction tokens with
  | nil => intro c hc; simp [joinSep] at hc
  | cons t ts ih =>
    intro c hc
    cases ts with
    | nil =>
      exact Or.inr ⟨t, by simp, hc⟩
    | cons t' ts' =>
      have : c ∈ t ++ sep :: joinSep sep (t' :: ts') := hc
      rw [List.mem_append] at this
      rcases this with h1 | h2
      · exact Or.inr ⟨t, by simp, h1⟩
      · rcases List.mem_cons.mp h2 with h3 | h4
        · exact Or.inl h3
        · rcases ih h4 with h5 | ⟨u, hu, hcu⟩
          · exact Or.inl h5
          · exact Or.inr ⟨u, by simp [List.mem_cons.mp hu], hcu⟩

lemma stripCR_no_cr {l : Str} (h : '\r' ∉ l) : stripCR l = l := by
  unfold stripCR
  split
  · rename_i rest hr
    exfalso
    apply h
    have : '\r' ∈ l.reverse := by rw [hr]; simp
    simpa using this
  · rfl

lemma map_eq_self_of_forall {f : Str → Str} :
    ∀ {l : List Str}, (∀ x ∈ l, f x = x) → l.map f = l := by
  intro l
  induction l with
  | nil => intro _; rfl
  | cons x xs ih =>
    intro h
    simp only [List.map_cons, h x (by simp), ih (fun y hy => h y (by simp [hy]))]

lemma tsvJoinLines_cons (l : Str) (ls : List Str) :
    tsvJoinLines (l :: ls) = l ++ '\n' :: tsvJoinLines ls := by
  show ((l :: ls).map (fun x => x ++ ['\n'])).flatten = _
  simp [tsvJoinLines, List.append_assoc]

lemma producerRun_joinLines :
    ∀ (lines : List Str), (∀ l ∈ lines, '\n' ∉ l) →
    ∀ (fuel n : Nat), (tsvJoinLines lines).length < fuel →
      (producerRun tsvRead fuel ⟨tsvJoinLines lines, none⟩ n).1.length = lines.length := by
  intro lines
  induction lines with
  | nil =>
    intro _ fuel n hlt
    cases fuel with
    | zero => exact absurd hlt (by simp)
    | succ f =>
      show (producerRun tsvRead (f + 1) ⟨[], none⟩ n).1.length = 0
      simp [producerRun, tsvRead, splitAtDelim]
  | cons l ls ih =>
    intro h fuel n hlt
    have hsp := splitAtDelim_of_leading l (tsvJoinLines ls) (h l (by simp))
    have hread : tsvRead ⟨tsvJoinLines (l :: ls), none⟩ =
        .ok (l ++ ['\n']) ⟨tsvJoinLines ls, none⟩ := by
      simp only [tsvRead, tsvJoinLines_cons, hsp]
    cases fuel with
    | zero => exact absurd hlt (Nat.not_lt_zero _)
    | succ f =>
      have hlen : (tsvJoinLines ls).length < f := by
        rw [tsvJoinLines_cons] at hlt
        simp only [List.length_append, List.length_cons] at hlt
        omega
      simp only [producerRun, hread, List.length_cons]
      rw [ih (fun x hx => h x (by simp [hx])) f (n + 1) hlen]

lemma csvParseLine_joinSep {tokens : List Str} (hne : tokens ≠ [])
    (h : ∀ t ∈ tokens, (∀ c ∈ t, c ≠ ',' ∧ c ≠ '\r') ∧ t.dropWhile isGoSpace = t) :
    csvParseLine (joinSep ',' tokens) = tokens := by
  unfold csvParseLine
  have hcr : '\r' ∉ joinSep ',' tokens := by
    intro hmem
    rcases mem_joinSep hmem with h1 | ⟨t, ht, hct⟩
    · exact absurd h1 (by decide)
    · exact ((h t ht).1 '\r' hct).2 rfl
  rw [stripCR_no_cr hcr]
  have hsep : ∀ t ∈ tokens, ',' ∉ t := fun t ht hc => ((h t ht).1 ',' hc).1 rfl
  rw [goSplitChar_joinSep hne hsep]
  exact map_eq_self_of_forall (fun t ht => (h t ht).2)

lemma tsvTokenize_joinSep {tokens : List Str} (hne : tokens ≠ [])
    (h : ∀ t ∈ tokens, ∀ c ∈ t, c ≠ '\t' ∧ c ≠ '\r' ∧ c ≠ '\n') :
    tsvTokenize (joinSep '\t' tokens ++ ['\n']) = tokens := by
  unfold tsvTokenize
  have hclean : ∀ c ∈ joinSep '\t' tokens, c ∉ (['\r', '\n'] : List Char) := by
    intro c hc hmem
    rcases mem_joinSep hc with h1 | ⟨t, ht, hct⟩
    · rcases List.mem_cons.mp hmem with h2 | h2
      · rw [h1] at h2; exact absurd h2 (by decide)
      · rw [h1] at h2; simp at h2
    · rcases List.mem_cons.mp hmem with h2 | h2
      · exact (h t ht c hct).2.1 h2
      · simp at h2; exact (h t ht c hct).2.2 h2
  rw [goTrimRight_append_single (by simp) hclean]
  have hsep : ∀ t ∈ tokens, '\t' ∉ t := fun t ht hc => (h t ht '\t' hc).1 rfl
  exact goSplitChar_joinSep hne hsep

lemma splitAtDelim_none_of_not_mem {d : Char} :
    ∀ {s : Str}, d ∉ s → splitAtDelim d s = none := by
  intro s
  induction s with
  | nil => intro _; rfl
  | cons c cs ih =>
    intro h
    have hc : c ≠ d := fun hc => h (by simp [hc])
    have hcs : d ∉ cs := fun hm => h (by simp [hm])
    simp [splitAtDelim, if_neg hc, ih hcs]

lemma tsv_admitted_map_index (r : TSVInputReader) :
    r.admittedRecords.map TSVConvertibleDoc.index =
      List.range' r.numProcessed r.admittedRecords.length := by
  unfold TSVInputReader.admittedRecords
  rw [List.map_map, List.length_map]
  exact producerRun_map_snd tsvRead _ _ _

lemma csv_admitted_map_index (r : CSVInputReader) :
    r.admittedRecords.map CSVConvertibleDoc.index =
      List.range' r.numProcessed r.admittedRecords.length := by
  unfold CSVInputReader.admittedRecords
  rw [List.map_map, List.length_map]
  exact producerRun_map_snd csvRead _ _ _

/-- C1: the claim says that for both the CSV and the TSV input reader the
size tracker reports, after full drain, the exact byte length of the
input.  This holds for the CSV reader, whose framing reads pull through
the tracker (`csv.NewReader(szCount)`), but fails for the TSV reader:
`NewTSVInputReader` wires `bufio.NewReader(in)` to the raw input instead
of the tracker (`szCount`), so `Size()` stays `0` forever — in
particular `0 ≠ 4` on the four-byte input `"a\tb\n"`, contradicting both
the spec and the field's own comment that the embedded `sizeTracker`
"exposes the Size() method to check the number of bytes read so far". -/
theorem bytesConsumed_after_drain :
    (∀ (fields : List Str) (input : Str),
      ((NewCSVInputReader fields input).drained).Size = input.length) ∧
    (∀ (fields : List Str) (input : Str),
      ((NewTSVInputReader fields input).drained).Size = 0) ∧
    ((NewTSVInputReader [] ("a\tb\n").toList).drained).Size = 0 ∧
    ("a\tb\n").toList.length = 4 := by
  refine ⟨?_, fun _ _ => rfl, rfl, rfl⟩
  intro fields input
  show 0 + (input.length -
    (drainSource csvRead (input.length + 1) ⟨input, none⟩).rem.length) = input.length
  rw [drainSource_csv_complete (input.length + 1) ⟨input, none⟩ rfl (Nat.lt_succ_self _)]
  simp

/-- C4: for both readers, the sequence indices attached to the admitted
Raw Records form the interval beginning at the reader's `numProcessed`
counter and increasing by exactly one per record; for a freshly
constructed reader (`numProcessed = 0`) the k-th record carries index
k-1, with no gaps and no repeats. -/
theorem sequence_indices_zero_based_consecutive :
    (∀ (r : TSVInputReader),
      r.admittedRecords.map TSVConvertibleDoc.index =
        List.range' r.numProcessed r.admittedRecords.length) ∧
    (∀ (r : CSVInputReader),
      r.admittedRecords.map CSVConvertibleDoc.index =
        List.range' r.numProcessed r.admittedRecords.length) ∧
    (∀ (fields : List Str) (input : Str),
      (NewTSVInputReader fields input).admittedRecords.map TSVConvertibleDoc.index =
        List.range (NewTSVInputReader fields input).admittedRecords.length) ∧
    (∀ (fields : List Str) (input : Str),
      (NewCSVInputReader fields input).admittedRecords.map CSVConvertibleDoc.index =
        List.range (NewCSVInputReader fields input).admittedRecords.length) := by
  refine ⟨tsv_admitted_map_index, csv_admitted_map_index, ?_, ?_⟩
  · intro fields input
    rw [List.range_eq_range']
    exact tsv_admitted_map_index (NewTSVInputReader fields input)
  · intro fields input
    rw [List.range_eq_range']
    exact csv_admitted_map_index (NewCSVInputReader fields input)

/-- C5: for both readers, a source that ends in a clean end-of-input
(`io.EOF`) makes the record sequence terminate with no error, and a
source that ends in any other I/O failure makes it terminate with
exactly one ReadError whose 1-based ordinal is the number of records
emitted plus one — the ordinal of the record whose framing failed. -/
theorem reader_eof_and_readerror_ordinal :
    (∀ (input : Str),
      (producerRun tsvRead (input.length + 1) ⟨input, none⟩ 0).2.2 = none) ∧
    (∀ (input : Str),
      (producerRun csvRead (input.length + 1) ⟨input, none⟩ 0).2.2 = none) ∧
    (∀ (input : Str) (msg : String),
      (producerRun tsvRead (input.length + 1) ⟨input, some msg⟩ 0).2.2 =
        some (.readError
          ((producerRun tsvRead (input.length + 1) ⟨input, some msg⟩ 0).1.length + 1)
          msg)) ∧
    (∀ (input : Str) (msg : String),
      (producerRun csvRead (input.length + 1) ⟨input, some msg⟩ 0).2.2 =
        some (.readError
          ((producerRun csvRead (input.length + 1) ⟨input, some msg⟩ 0).1.length + 1)
          msg)) := by
  refine ⟨?_, ?_, ?_, ?_⟩
  · intro input
    exact producerRun_err_clean tsvRead (fun s a s' h => (tsvRead_ok h).1)
      (fun s m h => tsvRead_fail h) _ _ 0 rfl
  · intro input
    exact producerRun_err_clean csvRead (fun s a s' h => (csvRead_ok h).1)
      (fun s m h => csvRead_fail h) _ _ 0 rfl
  · intro input msg
    have := producerRun_err_fail tsvRead (fun s a s' h => tsvRead_ok h)
      (fun s h => (tsvRead_eof h).1) (fun s m h => tsvRead_fail h)
      (input.length + 1) ⟨input, some msg⟩ 0 msg rfl (Nat.lt_succ_self _)
    simpa using this
  · intro input msg
    have := producerRun_err_fail csvRead (fun s a s' h => csvRead_ok h)
      (fun s h => (csvRead_eof h).1) (fun s m h => csvRead_fail h)
      (input.length + 1) ⟨input, some msg⟩ 0 msg rfl (Nat.lt_succ_self _)
    simpa using this

/-- C6: `TSVConvertibleDoc.Convert` tokenizes the raw line by first
stripping trailing line terminators (`"\r"` and `"\n"`) and then
splitting on the literal tab separator, handing the result to
`tokensToBSON`; concretely, `"1\t2\r\n"` tokenizes to `["1", "2"]`. -/
theorem tsv_convert_tokenization :
    (∀ (t2b : List Str → List Str → Nat → Except StreamErr BsonD)
       (d : TSVConvertibleDoc),
      TSVConvertibleDoc.Convert t2b d =
        t2b d.fields (goSplitChar '\t' (goTrimRight d.data ['\r', '\n'])) d.index) ∧
    tsvTokenize ("1\t2\r\n").toList = [['1'], ['2']] := by
  exact ⟨fun _ _ => rfl, by decide⟩

/-- C9: an input whose final line is not `'\n'`-terminated yields no Raw
Record for that line from the TSV producer: when `ReadString` returns
the partial data together with `io.EOF`, the partial line is discarded
and the record channel is closed without an error.  The second conjunct
runs the producer on `"x\ny"`: only the record `"x\n"` is emitted and
the trailing `"y"` is dropped. -/
theorem tsv_unterminated_final_line_discarded :
    (∀ (fuel : Nat) (s : BufSource) (n : Nat), s.err = none → '\n' ∉ s.rem →
      producerRun tsvRead fuel s n = ([], n, none)) ∧
    producerRun tsvRead 4 ⟨['x', '\n', 'y'], none⟩ 0 = ([(['x', '\n'], 0)], 1, none) := by
  refine ⟨?_, by decide⟩
  intro fuel s n herr hmem
  cases fuel with
  | zero => rfl
  | succ f =>
    have hread : tsvRead s = .eof := by
      simp [tsvRead, splitAtDelim_none_of_not_mem hmem, herr]
    simp [producerRun, hread]

/-- Witness for C9: the producer state after consuming all terminated
lines, holding only the unterminated tail `"ab"`, emits nothing and
reports no error. -/
theorem tsv_unterminated_final_line_discarded_witness :
    producerRun tsvRead 3 ⟨['a', 'b'], none⟩ 5 = ([], 5, none) :=
  tsv_unterminated_final_line_discarded.1 3 ⟨['a', 'b'], none⟩ 5 rfl (by decide)

/-- C8: `ReadAndValidateHeader` fails synchronously — the error is its
return value, delivered before any record is streamed, and the reader is
left untouched — on an I/O failure while reading the header, and on a
malformed header such as one with a duplicate field name (`"a,a,b"`); on
success the field list is set from the header and validated. -/
theorem header_failures_synchronous :
    (∀ (r : CSVInputReader) (m : String), csvRead r.csvReader = .fail m →
      r.ReadAndValidateHeader = (.error m, r)) ∧
    (∀ (r : TSVInputReader) (m : String), tsvRead r.tsvReader = .fail m →
      r.ReadAndValidateHeader = (.error m, r)) ∧
    (((NewCSVInputReader [] ("a,a,b\n1,2,3\n").toList).ReadAndValidateHeader).1 =
      .error ("duplicate field name")) ∧
    (((NewTSVInputReader [] ("a\ta\tb\n").toList).ReadAndValidateHeader).1 =
      .error ("duplicate field name")) ∧
    (∀ (r : CSVInputReader) (fields : List Str) (s' : BufSource),
      csvRead r.csvReader = .ok fields s' → validateReaderFields fields = .ok () →
      r.ReadAndValidateHeader = (.ok (), { r with fields := fields, csvReader := s' })) ∧
    (((NewCSVInputReader [] ("a,b,c\n1,2,3\n").toList).ReadAndValidateHeader).2.fields =
      [['a'], ['b'], ['c']]) := by
  refine ⟨?_, ?_, rfl, rfl, ?_, rfl⟩
  · intro r m h
    simp [CSVInputReader.ReadAndValidateHeader, h]
  · intro r m h
    simp [TSVInputReader.ReadAndValidateHeader, h]
  · intro r fields s' hok hval
    simp [CSVInputReader.ReadAndValidateHeader, hok, hval]

/-- Witness for C8: a CSV header read failing with a disk error is
returned synchronously with the reader untouched; same for TSV; and a
valid CSV header `"a,b,c"` succeeds, setting the field list. -/
theorem header_failures_synchronous_witness :
    (({ fields := [], csvReader := ⟨[], some ("disk failure")⟩, numProcessed := 0,
        szCount := ⟨0⟩ } : CSVInputReader).ReadAndValidateHeader =
      (.error ("disk failure"),
        { fields := [], csvReader := ⟨[], some ("disk failure")⟩, numProcessed := 0,
          szCount := ⟨0⟩ })) ∧
    (({ fields := [], tsvReader := ⟨[], some ("disk failure")⟩, numProcessed := 0,
        szCount := ⟨0⟩ } : TSVInputReader).ReadAndValidateHeader =
      (.error ("disk failure"),
        { fields := [], tsvReader := ⟨[], some ("disk failure")⟩, numProcessed := 0,
          szCount := ⟨0⟩ })) ∧
    ((NewCSVInputReader [] ("a,b,c\n1,2,3\n").toList).ReadAndValidateHeader =
      (.ok (), { NewCSVInputReader [] ("a,b,c\n1,2,3\n").toList with
                 fields := [['a'], ['b'], ['c']],
                 csvReader := ⟨("1,2,3\n").toList, none⟩ })) :=
  ⟨header_failures_synchronous.1 _ ("disk failure") rfl,
   header_failures_synchronous.2.1 _ ("disk failure") rfl,
   header_failures_synchronous.2.2.2.2.1 _ [['a'], ['b'], ['c']]
     ⟨("1,2,3\n").toList, none⟩ rfl rfl⟩

/-- C10: on a successful header read, `TSVInputReader` appends the
header names to the field list it was constructed with, while
`CSVInputReader` replaces its field list by the header record;
concretely, a reader constructed with `["x"]` ends with `["x","a","b"]`
(TSV header `"a\tb"`) versus `["a","b"]` (CSV header `"a,b"`). -/
theorem tsv_header_appends_csv_replaces :
    (∀ (r : TSVInputReader) (header : Str) (s' : BufSource),
      tsvRead r.tsvReader = .ok header s' →
      ((r.ReadAndValidateHeader).2).fields =
        r.fields ++ (goSplitChar '\t' header).map (fun f => goTrimRight f ['\r', '\n'])) ∧
    (∀ (r : CSVInputReader) (rec : List Str) (s' : BufSource),
      csvRead r.csvReader = .ok rec s' →
      ((r.ReadAndValidateHeader).2).fields = rec) ∧
    (((NewTSVInputReader [['x']] ("a\tb\n").toList).ReadAndValidateHeader).2.fields =
      [['x'], ['a'], ['b']]) ∧
    (((NewCSVInputReader [['x']] ("a,b\n").toList).ReadAndValidateHeader).2.fields =
      [['a'], ['b']]) := by
  refine ⟨?_, ?_, rfl, rfl⟩
  · intro r header s' h
    simp [TSVInputReader.ReadAndValidateHeader, h]
  · intro r rec s' h
    simp [CSVInputReader.ReadAndValidateHeader, h]

/-- Witness for C10: the TSV reader constructed with `["x"]` ends, after
reading the header `"a\tb\n"`, with the appended field list; the CSV
reader constructed with `["x"]` ends with the header record alone. -/
theorem tsv_header_appends_csv_replaces_witness :
    (((NewTSVInputReader [['x']] ("a\tb\n").toList).ReadAndValidateHeader).2.fields =
      [['x']] ++ (goSplitChar '\t' ("a\tb\n").toList).map
        (fun f => goTrimRight f ['\r', '\n'])) ∧
    (((NewCSVInputReader [['x']] ("a,b\n").toList).ReadAndValidateHeader).2.fields =
      [['a'], ['b']]) :=
  ⟨tsv_header_appends_csv_replaces.1 _ ("a\tb\n").toList ⟨[], none⟩ rfl,
   tsv_header_appends_csv_replaces.2.1 _ [['a'], ['b']] ⟨[], none⟩ rfl⟩

/-- C2 counterexample: on a stream whose framing fails after one record
and whose conversion also fails, a single `StreamDocument` call delivers
TWO values on the error channel — the producer's read error and then the
engine's terminal conversion error — because the producer goroutine
sends its read error on `errChan` and `StreamDocument` additionally
sends the result of `streamDocuments` on the same channel.  This
refutes the claim that exactly one terminal error value is delivered and
that a read error and an engine error never both appear. -/
theorem errchan_two_values_counterexample :
    (({ fields := [], tsvReader := ⟨['x', '\n'], some ("unexpected read failure")⟩,
        numProcessed := 0, szCount := ⟨0⟩ } : TSVInputReader).StreamDocument t2bFail).2 =
      [some (.readError 2 "unexpected read failure"),
       some (.convError 0 "cannot convert")] ∧
    [some (StreamErr.readError 2 "unexpected read failure"),
     some (StreamErr.convError 0 "cannot convert")].length ≠ 1 := by
  exact ⟨by decide, by decide⟩

/-- C2 amended: for both readers, the error channel always receives the
engine's terminal value (nil on success or the first conversion error)
as its last element; when the framing ends in a clean end-of-input this
is the only value, but when the framing fails the producer's read error
is delivered additionally, before it — so one value on clean reads and
two on a read failure, rather than exactly one in all cases. -/
theorem errchan_terminal_values :
    (∀ (r : TSVInputReader)
       (t2b : List Str → List Str → Nat → Except StreamErr BsonD),
      (r.tsvReader.err = none → ∃ e, (r.StreamDocument t2b).2 = [e]) ∧
      (∀ msg, r.tsvReader.err = some msg →
        ∃ k e, (r.StreamDocument t2b).2 = [some (.readError k msg), e])) ∧
    (∀ (r : CSVInputReader)
       (t2b : List Str → List Str → Nat → Except StreamErr BsonD),
      (r.csvReader.err = none → ∃ e, (r.StreamDocument t2b).2 = [e]) ∧
      (∀ msg, r.csvReader.err = some msg →
        ∃ k e, (r.StreamDocument t2b).2 = [some (.readError k msg), e])) := by
  constructor
  · intro r t2b
    constructor
    · intro herr
      have h1 := producerRun_err_clean tsvRead (fun s a s' h => (tsvRead_ok h).1)
        (fun s m h => tsvRead_fail h) (r.tsvReader.rem.length + 1) r.tsvReader
        r.numProcessed herr
      exact ⟨_, by
        show ((producerRun tsvRead (r.tsvReader.rem.length + 1) r.tsvReader
            r.numProcessed).2.2.map some).toList ++ _ = _
        rw [h1]
        exact rfl⟩
    · intro msg herr
      have h1 := producerRun_err_fail tsvRead (fun s a s' h => tsvRead_ok h)
        (fun s h => (tsvRead_eof h).1) (fun s m h => tsvRead_fail h)
        (r.tsvReader.rem.length + 1) r.tsvReader r.numProcessed msg herr
        (Nat.lt_succ_self _)
      exact ⟨_, _, by
        show ((producerRun tsvRead (r.tsvReader.rem.length + 1) r.tsvReader
            r.numProcessed).2.2.map some).toList ++ _ = _
        rw [h1]
        exact rfl⟩
  · intro r t2b
    constructor
    · intro herr
      have h1 := producerRun_err_clean csvRead (fun s a s' h => (csvRead_ok h).1)
        (fun s m h => csvRead_fail h) (r.csvReader.rem.length + 1) r.csvReader
        r.numProcessed herr
      exact ⟨_, by
        show ((producerRun csvRead (r.csvReader.rem.length + 1) r.csvReader
            r.numProcessed).2.2.map some).toList ++ _ = _
        rw [h1]
        exact rfl⟩
    · intro msg herr
      have h1 := producerRun_err_fail csvRead (fun s a s' h => csvRead_ok h)
        (fun s h => (csvRead_eof h).1) (fun s m h => csvRead_fail h)
        (r.csvReader.rem.length + 1) r.csvReader r.numProcessed msg herr
        (Nat.lt_succ_self _)
      exact ⟨_, _, by
        show ((producerRun csvRead (r.csvReader.rem.length + 1) r.csvReader
            r.numProcessed).2.2.map some).toList ++ _ = _
        rw [h1]
        exact rfl⟩

/-- Witness for C2 (amended): a clean TSV stream delivers a single
error-channel value; a TSV stream whose source fails delivers the read
error followed by the engine's value. -/
theorem errchan_terminal_values_witness :
    (∃ e, ((NewTSVInputReader [] ("x\n").toList).StreamDocument t2bZip).2 = [e]) ∧
    (∃ k e,
      (({ fields := [], tsvReader := ⟨['x', '\n'], some ("unexpected read failure")⟩,
          numProcessed := 0, szCount := ⟨0⟩ } : TSVInputReader).StreamDocument t2bZip).2 =
        [some (.readError k ("unexpected read failure")), e]) :=
  ⟨(errchan_terminal_values.1 (NewTSVInputReader [] ("x\n").toList) t2bZip).1 rfl,
   (errchan_terminal_values.1 _ t2bZip).2 ("unexpected read failure") rfl⟩

/-- C3 counterexample: in the interleaved pipeline, after the first
record's conversion error has been latched as the terminal error (state
after `[produce, work]`), a further `produce` step still admits the
second record to the queue (`numProcessed` reaches 2 and the queue holds
one record) — the producer goroutine has no check of any terminal-error
cell, refuting the claim that it observes the cell before each unit of
work and stops once it is set. -/
theorem producer_ignores_latched_error_counterexample :
    (runSteps 1 [['f']] t2bFail (initPipeState ⟨("x\ny\n").toList, none⟩)
        [.produce, .work]).map PipeState.latched =
      some (some (.convError 0 "cannot convert")) ∧
    (runSteps 1 [['f']] t2bFail (initPipeState ⟨("x\ny\n").toList, none⟩)
        [.produce, .work, .produce]).map
          (fun s => (s.numProcessed, s.queue.length)) = some (2, 1) := by
  exact ⟨by decide, by decide⟩

/-- C3 amended: the producer does not observe the terminal-error cell;
whenever its own framing read succeeds and the bounded queue has room,
its step admits a further Raw Record even though an error is already
latched.  It stops reading only on its own read outcome (end-of-input
or a read failure). -/
theorem producer_ignores_latched_error :
    ∀ (cap : Nat) (fields : List Str)
      (t2b : List Str → List Str → Nat → Except StreamErr BsonD)
      (s : PipeState) (e : StreamErr) (line : Str) (src' : BufSource),
      s.latched = some e → s.producerDone = false →
      tsvRead s.src = .ok line src' → s.queue.length < cap →
      pipeStep cap fields t2b s .produce =
        some { s with
               src := src'
               queue := s.queue ++ [TSVConvertibleDoc.mk fields line s.numProcessed]
               numProcessed := s.numProcessed + 1 } := by
  intro cap fields t2b s e line src' _ hdone hread hq
  simp [pipeStep, hdone, hread, hq]

/-- Witness for C3 (amended): with the conversion error of record 0
already latched, the producer still admits record 1. -/
theorem producer_ignores_latched_error_witness :
    pipeStep 1 [['f']] t2bFail
      { src := ⟨['y', '\n'], none⟩, numProcessed := 1, queue := [],
        latched := some (.convError 0 "cannot convert"), docs := [],
        producerDone := false }
      .produce =
      some { src := ⟨[], none⟩, numProcessed := 2,
             queue := [TSVConvertibleDoc.mk [['f']] ['y', '\n'] 1],
             latched := some (.convError 0 "cannot convert"), docs := [],
             producerDone := false } :=
  producer_ignores_latched_error 1 [['f']] t2bFail _ (.convError 0 "cannot convert")
    ['y', '\n'] ⟨[], none⟩ rfl rfl rfl (by decide)

/-- C7 counterexample: `NewCSVInputReader` sets `TrimLeadingSpace`, so
the raw token `" a"` of the record `" a,b"` loses its leading space on
the way to the document: with a conversion that pairs fields with the
raw tokens, the document's first value is `"a"`, not `" a"` — field
values are NOT preserved byte-for-byte by the CSV reader. -/
theorem csv_leading_space_counterexample :
    csvParseLine (" a,b").toList = [['a'], ['b']] ∧
    ((NewCSVInputReader [['f'], ['g']] (" a,b\n").toList).StreamDocument t2bZip).1 =
      [[(['f'], ['a']), (['g'], ['b'])]] ∧
    (['a'] : Str) ≠ [' ', 'a'] := by
  exact ⟨by decide, by decide, by decide⟩

/-- C7 amended: for an input of N well-formed records processed without
error the output contains exactly N documents and a nil terminal value;
TSV tokens are preserved byte-for-byte (the framing strips only the
line's trailing `"\r\n"`); CSV fields are preserved byte-for-byte
except that leading white space of a field is removed, because
`NewCSVInputReader` sets `TrimLeadingSpace` (fields with no leading
blanks and no structural characters round-trip exactly). -/
theorem well_formed_records_count_and_preservation :
    (∀ (lines : List Str), (∀ l ∈ lines, '\n' ∉ l) →
      ∀ (fields : List Str) (t2b : List Str → List Str → Nat → Except StreamErr BsonD),
        (∀ f d i, ∃ doc, t2b f d i = .ok doc) →
        ((NewTSVInputReader fields (tsvJoinLines lines)).StreamDocument t2b).1.length =
            lines.length ∧
          ((NewTSVInputReader fields (tsvJoinLines lines)).StreamDocument t2b).2 =
            [none]) ∧
    (∀ (tokens : List Str), tokens ≠ [] →
      (∀ t ∈ tokens, ∀ c ∈ t, c ≠ '\t' ∧ c ≠ '\r' ∧ c ≠ '\n') →
      tsvTokenize (joinSep '\t' tokens ++ ['\n']) = tokens) ∧
    (∀ (tokens : List Str), tokens ≠ [] →
      (∀ t ∈ tokens, (∀ c ∈ t, c ≠ ',' ∧ c ≠ '\r') ∧ t.dropWhile isGoSpace = t) →
      csvParseLine (joinSep ',' tokens) = tokens) := by
  refine ⟨?_, fun tokens hne h => tsvTokenize_joinSep hne h,
    fun tokens hne h => csvParseLine_joinSep hne h⟩
  intro lines hl fields t2b htot
  have hrec := producerRun_joinLines lines hl ((tsvJoinLines lines).length + 1) 0
    (Nat.lt_succ_self _)
  have hclean := producerRun_err_clean tsvRead (fun s a s' h => (tsvRead_ok h).1)
    (fun s m h => tsvRead_fail h) ((tsvJoinLines lines).length + 1)
    ⟨tsvJoinLines lines, none⟩ 0 rfl
  have htot' : ∀ d ∈ ((producerRun tsvRead ((tsvJoinLines lines).length + 1)
      ⟨tsvJoinLines lines, none⟩ 0).1.map
        (fun x => TSVConvertibleDoc.mk fields x.1 x.2)),
      ∃ doc, TSVConvertibleDoc.Convert t2b d = Except.ok doc :=
    fun d _ => htot d.fields (tsvTokenize d.data) d.index
  have hsd := streamDocuments_total htot'
  constructor
  · show (streamDocuments (TSVConvertibleDoc.Convert t2b)
        ((producerRun tsvRead ((tsvJoinLines lines).length + 1)
          ⟨tsvJoinLines lines, none⟩ 0).1.map
            (fun x => TSVConvertibleDoc.mk fields x.1 x.2))).1.length = lines.length
    rw [hsd.1, List.length_map, hrec]
  · show ((producerRun tsvRead ((tsvJoinLines lines).length + 1)
        ⟨tsvJoinLines lines, none⟩ 0).2.2.map some).toList ++
      [(streamDocuments (TSVConvertibleDoc.Convert t2b)
        ((producerRun tsvRead ((tsvJoinLines lines).length + 1)
          ⟨tsvJoinLines lines, none⟩ 0).1.map
            (fun x => TSVConvertibleDoc.mk fields x.1 x.2))).2] = [none]
    rw [hclean, hsd.2]
    rfl

/-- Witness for C7 (amended): the two-line TSV input `"1\n2\n"` with a
total conversion yields two documents and a nil terminal value; the
tokens `["a", "b"]` round-trip through TSV tokenization and CSV
parsing. -/
theorem well_formed_records_count_and_preservation_witness :
    (((NewTSVInputReader [['f']] (tsvJoinLines [['1'], ['2']])).StreamDocument
        t2bZip).1.length = 2 ∧
      ((NewTSVInputReader [['f']] (tsvJoinLines [['1'], ['2']])).StreamDocument
        t2bZip).2 = [none]) ∧
    tsvTokenize (joinSep '\t' [['a'], ['b']] ++ ['\n']) = [['a'], ['b']] ∧
    csvParseLine (joinSep ',' [['a'], ['b']]) = [['a'], ['b']] :=
  ⟨well_formed_records_count_and_preservation.1 [['1'], ['2']] (by decide) [['f']]
      t2bZip (fun f d i => ⟨f.zip d, rfl⟩),
    well_formed_records_count_and_preservation.2.1 [['a'], ['b']] (by decide)
      (by decide),
    well_formed_records_count_and_preservation.2.2 [['a'], ['b']] (by decide)
      (by decide)⟩

end MongoImport
